import Mathlib

/-!
Verification of the `code-challenge` repository against its specification.

Part 1: the arithmetic module `src/problem4/index.ts`, three implementations
of the triangular-number sum, embedded over `Int` (TypeScript numbers at
integer inputs).
-/

namespace Problem4

/-- Embedding of `sum_to_n_a` (`src/problem4/index.ts`): iterative loop
`for (let i = 1; i <= n; i++) sum += i`. The loop body runs `n.toNat`
times with `i` ranging over `1, …, n`; for `n ≤ 0` the loop body never
runs and the accumulator stays `0`. -/
def sum_to_n_a (n : Int) : Int :=
  (List.range n.toNat).foldl (fun sum i => sum + (((i + 1 : Nat)) : Int)) 0

/-- Embedding of `sum_to_n_b` (`src/problem4/index.ts`):
`if (n <= 0) return 0; return (n * (n + 1)) / 2`. For `n > 0` the product
`n * (n + 1)` is even, so JavaScript's exact float division agrees with
integer division. -/
def sum_to_n_b (n : Int) : Int :=
  if n ≤ 0 then 0 else n * (n + 1) / 2

/-- Embedding of `sum_to_n_c` (`src/problem4/index.ts`):
`if (n <= 0) return 0; return n + sum_to_n_c(n - 1)`, total by
well-founded recursion on `n.toNat`. -/
def sum_to_n_c (n : Int) : Int :=
  if n ≤ 0 then 0 else n + sum_to_n_c (n - 1)
termination_by n.toNat
decreasing_by
  rename_i h
  omega

/-- Helper: twice the loop sum equals `m * (m + 1)`. -/
theorem sum_a_loop_closed (m : Nat) :
    2 * (List.range m).foldl (fun sum i => sum + (((i + 1 : Nat)) : Int)) 0
      = (m : Int) * ((m : Int) + 1) := by
  induction m with
  | zero => simp
  | succ k ih =>
    rw [List.range_succ, List.foldl_append]
    simp only [List.foldl]
    push_cast
    push_cast at ih
    linear_combination ih

theorem sum_to_n_a_eq (n : Int) (h : 0 ≤ n) : 2 * sum_to_n_a n = n * (n + 1) := by
  unfold sum_to_n_a
  have := sum_a_loop_closed n.toNat
  rwa [Int.toNat_of_nonneg h] at this

theorem sum_to_n_c_nat (m : Nat) : 2 * sum_to_n_c (m : Int) = (m : Int) * ((m : Int) + 1) := by
  induction m with
  | zero =>
    rw [sum_to_n_c]
    simp
  | succ k ih =>
    rw [sum_to_n_c]
    have hk1 : ¬ (((k + 1 : Nat) : Int) ≤ 0) := by omega
    rw [if_neg hk1]
    have h2 : ((k + 1 : Nat) : Int) - 1 = (k : Int) := by push_cast; ring
    rw [h2, mul_add, ih]
    push_cast
    ring

theorem sum_to_n_c_eq (n : Int) (h : 0 ≤ n) : 2 * sum_to_n_c n = n * (n + 1) := by
  lift n to ℕ using h
  exact sum_to_n_c_nat n

theorem sum_to_n_a_closed (n : Int) (h : 0 ≤ n) : sum_to_n_a n = n * (n + 1) / 2 := by
  have h2 := sum_to_n_a_eq n h
  rw [← h2, Int.mul_ediv_cancel_left _ two_ne_zero]

theorem sum_to_n_c_closed (n : Int) (h : 0 ≤ n) : sum_to_n_c n = n * (n + 1) / 2 := by
  have h2 := sum_to_n_c_eq n h
  rw [← h2, Int.mul_ediv_cancel_left _ two_ne_zero]

theorem sum_to_n_b_closed (n : Int) (h : 0 ≤ n) : sum_to_n_b n = n * (n + 1) / 2 := by
  unfold sum_to_n_b
  by_cases h0 : n ≤ 0
  · have : n = 0 := le_antisymm h0 h
    subst this
    simp
  · rw [if_neg h0]

theorem sum_to_n_a_nonpos (n : Int) (h : n ≤ 0) : sum_to_n_a n = 0 := by
  unfold sum_to_n_a
  have : n.toNat = 0 := Int.toNat_of_nonpos h
  rw [this]
  simp

theorem sum_to_n_b_nonpos (n : Int) (h : n ≤ 0) : sum_to_n_b n = 0 := by
  unfold sum_to_n_b
  rw [if_pos h]

theorem sum_to_n_c_nonpos (n : Int) (h : n ≤ 0) : sum_to_n_c n = 0 := by
  rw [sum_to_n_c, if_pos h]

/-- C1: for every non-negative integer `n`, the three implementations
`sum_to_n_a`, `sum_to_n_b` and `sum_to_n_c` each return the `n`-th
triangular number `n * (n + 1) / 2` (which is `0` at `n = 0`). -/
theorem c1_sum_to_n_triangular (n : Nat) :
    sum_to_n_a (n : Int) = (n : Int) * ((n : Int) + 1) / 2
      ∧ sum_to_n_b (n : Int) = (n : Int) * ((n : Int) + 1) / 2
      ∧ sum_to_n_c (n : Int) = (n : Int) * ((n : Int) + 1) / 2 := by
  have h : (0 : Int) ≤ (n : Int) := Int.natCast_nonneg n
  exact ⟨sum_to_n_a_closed _ h, sum_to_n_b_closed _ h, sum_to_n_c_closed _ h⟩

/-- C2: for every integer `n` (negative included) the three implementations
agree, and for `n ≤ 0` they all return `0`. -/
theorem c2_sum_to_n_agree (n : Int) :
    sum_to_n_a n = sum_to_n_c n ∧ sum_to_n_b n = sum_to_n_c n
      ∧ (n ≤ 0 → sum_to_n_c n = 0) := by
  by_cases h : n ≤ 0
  · rw [sum_to_n_a_nonpos n h, sum_to_n_b_nonpos n h, sum_to_n_c_nonpos n h]
    exact ⟨rfl, rfl, fun _ => rfl⟩
  · have h0 : 0 ≤ n := by omega
    refine ⟨?_, ?_, fun hc => absurd hc h⟩
    · rw [sum_to_n_a_closed n h0, sum_to_n_c_closed n h0]
    · rw [sum_to_n_b_closed n h0, sum_to_n_c_closed n h0]

/-- C2 witness: concrete agreement at `n = -5` (all three give `0`). -/
theorem c2_sum_to_n_agree_witness :
    sum_to_n_a (-5) = sum_to_n_c (-5) ∧ sum_to_n_b (-5) = sum_to_n_c (-5)
      ∧ sum_to_n_c (-5) = 0 :=
  ⟨(c2_sum_to_n_agree (-5)).1, (c2_sum_to_n_agree (-5)).2.1,
   (c2_sum_to_n_agree (-5)).2.2 (by decide)⟩

/-- C10: `sum_to_n_c` is a total function on the integers (it is defined in
Lean by well-founded recursion on `n.toNat`, which decreases at each
recursive call), it returns `0` immediately for `n ≤ 0`, and for `n > 0`
it satisfies the recursion `sum_to_n_c n = n + sum_to_n_c (n - 1)`. -/
theorem c10_sum_to_n_c_total (n : Int) :
    (n ≤ 0 → sum_to_n_c n = 0) ∧ (0 < n → sum_to_n_c n = n + sum_to_n_c (n - 1)) := by
  constructor
  · intro h
    rw [sum_to_n_c, if_pos h]
  · intro h
    rw [sum_to_n_c, if_neg (by omega)]

/-- C10 witness: the recursion equations evaluated at `n = -2` and `n = 3`. -/
theorem c10_sum_to_n_c_total_witness :
    sum_to_n_c (-2) = 0 ∧ sum_to_n_c 3 = 3 + sum_to_n_c 2 :=
  ⟨(c10_sum_to_n_c_total (-2)).1 (by decide),
   (c10_sum_to_n_c_total 3).2 (by decide)⟩

end Problem4

/-!
Part 2: the CRUD service `src/problem5`.

Errors are thrown as JavaScript exceptions; we embed an operation that can
throw as a function into `Except ThrownError`. The custom error classes of
`utils/error.util.ts` are not included under `src/` (only their users and
the repository docs are); `ThrownError` is modelled from the docs: an
`AppError` hierarchy with `UnauthorizedError` (401, `UNAUTHORIZED`),
`NotFoundError` (404, `NOT_FOUND`), `ConflictError` (409, `CONFLICT`),
`ValidationError` (400, `VALIDATION_ERROR`), each carrying a message.
-/

namespace Problem5

/-- Modelled from the spec: the custom error classes documented for
`utils/error.util.ts` (the file is absent from `src/`); each subclass of
`AppError` carries its message, the status code and code being fixed per
class. `genericError` stands for any thrown value that is none of them. -/
inductive ThrownError where
  | unauthorizedError (message : String)
  | notFoundError (message : String)
  | conflictError (message : String)
  | validationError (message : String)
  | genericError (message : String)
deriving DecidableEq

/-- The decoded token payload (`JwtPayload` in `utils/jwt.util.ts`). -/
structure JwtPayload where
  userId : String
  email : String
deriving DecidableEq

/-- Possible outcomes of the external `jwt.verify` call (library code, not
part of the repository): success with a payload, a `TokenExpiredError`, a
(non-expired) `JsonWebTokenError`, or any other thrown value. -/
inductive VerifyOutcome where
  | success (payload : JwtPayload)
  | tokenExpiredError
  | jsonWebTokenError
  | otherThrow
deriving DecidableEq

/-- Embedding of `verifyToken` (`utils/jwt.util.ts`), parameterized by the
outcome of the underlying `jwt.verify` call: the `try`/`catch` dispatches
on `instanceof jwt.TokenExpiredError`, then `instanceof
jwt.JsonWebTokenError`, and rethrows anything else as a third
`UnauthorizedError`. -/
def verifyToken (outcome : VerifyOutcome) : Except ThrownError JwtPayload :=
  match outcome with
  | .success p => .ok p
  | .tokenExpiredError => .error (.unauthorizedError "Token has expired")
  | .jsonWebTokenError => .error (.unauthorizedError "Invalid token")
  | .otherThrow => .error (.unauthorizedError "Token verification failed")

/-- C7: `verifyToken` is total with exactly two kinds of outcome: either
the authenticated payload, or an `UnauthorizedError` (never any other
error kind); expired and invalid tokens get distinct messages. -/
theorem c7_verify_token_two_outcomes :
    (∀ outcome : VerifyOutcome,
        (∃ p, verifyToken outcome = Except.ok p)
          ∨ (∃ msg, verifyToken outcome = Except.error (.unauthorizedError msg)))
      ∧ verifyToken .tokenExpiredError
          = Except.error (.unauthorizedError "Token has expired")
      ∧ verifyToken .jsonWebTokenError
          = Except.error (.unauthorizedError "Invalid token")
      ∧ ("Token has expired" : String) ≠ "Invalid token" := by
  refine ⟨fun outcome => ?_, rfl, rfl, by decide⟩
  cases outcome with
  | success p => exact Or.inl ⟨p, rfl⟩
  | tokenExpiredError => exact Or.inr ⟨"Token has expired", rfl⟩
  | jsonWebTokenError => exact Or.inr ⟨"Invalid token", rfl⟩
  | otherThrow => exact Or.inr ⟨"Token verification failed", rfl⟩

/-- The `details` payload attached to an error response: absent, Zod
validation issues, or whatever an `AppError` was constructed with. -/
inductive Details where
  | noDetails
  | zodIssues (issues : List String)
  | appDetails (value : String)
deriving DecidableEq

/-- The errors the Express error middleware can receive: a `ZodError`
carrying its `errors` list, an `AppError` carrying its own `statusCode`,
`code`, `message` and optional `details`, or any other `Error`. The
`instanceof` dispatch order of the source is reflected by the disjoint
constructors (`ZodError` does not extend `AppError`). -/
inductive JsError where
  | zodError (issues : List String)
  | appError (statusCode : Nat) (code : String) (message : String) (details : Details)
  | otherError (message : String)
deriving DecidableEq

/-- The HTTP response produced by the error middleware: status plus the
`{ error: { message, code, details } }` body. -/
structure ErrorResponse where
  status : Nat
  message : String
  code : String
  details : Details
deriving DecidableEq

/-- Embedding of `errorHandler` (`middleware/error.middleware.ts`):
`ZodError` → 400 `VALIDATION_ERROR` with the issues; `AppError` → its own
`statusCode`/`code`/`message`/`details`; anything else → 500
`INTERNAL_ERROR`. (Logging has no effect on the response and is omitted.) -/
def errorHandler (err : JsError) : ErrorResponse :=
  match err with
  | .zodError issues => ⟨400, "Validation failed", "VALIDATION_ERROR", .zodIssues issues⟩
  | .appError statusCode code message details => ⟨statusCode, message, code, details⟩
  | .otherError _ => ⟨500, "Internal server error", "INTERNAL_ERROR", .noDetails⟩

/-- A row of the `User` table (`prisma/schema.prisma`, documented in the
repository README): id, firstName, lastName, age. Timestamps play no role
in the claims and are omitted. -/
structure UserRec where
  id : String
  firstName : String
  lastName : String
  age : Int
deriving DecidableEq

/-- The user table, keyed by `id`. -/
abbrev UserStore := List UserRec

/-- `prisma.user.findUnique({ where: { id } })`. -/
def findUnique (store : UserStore) (i : String) : Option UserRec :=
  store.find? (fun u => u.id == i)

/-- All three fields, required (`UpdateUserDto` in
`services/user.service.ts`). -/
structure UpdateUserDto where
  firstName : String
  lastName : String
  age : Int
deriving DecidableEq

/-- All fields optional (`PatchUserDto` in `services/user.service.ts`). -/
structure PatchUserDto where
  firstName : Option String
  lastName : Option String
  age : Option Int
deriving DecidableEq

namespace userService

/-- Embedding of `userService.getById`: `findUnique`, throwing
`NotFoundError('User not found')` when no user has the id. -/
def getById (store : UserStore) (i : String) : Except ThrownError UserRec :=
  match findUnique store i with
  | none => .error (.notFoundError "User not found")
  | some u => .ok u

/-- `prisma.user.update({ where: { id }, data })` applied to the store:
rewrite the row whose id matches. -/
def prismaUpdate (store : UserStore) (i : String) (f : UserRec → UserRec) : UserStore :=
  store.map (fun u => if u.id == i then f u else u)

/-- Embedding of `userService.update`: check existence via `getById`
(throwing `NotFoundError` if absent), then write all three fields. Returns
the possibly-changed store together with the thrown error or the updated
user. -/
def update (store : UserStore) (i : String) (data : UpdateUserDto) :
    UserStore × Except ThrownError UserRec :=
  match getById store i with
  | .error e => (store, .error e)
  | .ok u =>
    let u2 : UserRec := ⟨u.id, data.firstName, data.lastName, data.age⟩
    (prismaUpdate store i (fun _ => u2), .ok u2)

/-- Embedding of `userService.patch`: check existence via `getById`, then
write only the fields present in the dto. -/
def patch (store : UserStore) (i : String) (data : PatchUserDto) :
    UserStore × Except ThrownError UserRec :=
  match getById store i with
  | .error e => (store, .error e)
  | .ok u =>
    let u2 : UserRec :=
      ⟨u.id, data.firstName.getD u.firstName, data.lastName.getD u.lastName,
       data.age.getD u.age⟩
    (prismaUpdate store i (fun _ => u2), .ok u2)

/-- Embedding of `userService.delete`: check existence via `getById`, then
`prisma.user.delete({ where: { id } })`. -/
def delete (store : UserStore) (i : String) :
    UserStore × Except ThrownError Unit :=
  match getById store i with
  | .error e => (store, .error e)
  | .ok _ => (store.filter (fun u => !(u.id == i)), .ok ())

end userService

/-- C9: when no user has the given id, `update`, `patch` and `delete` each
throw `NotFoundError` (raised by the initial `getById`) and leave the user
store unchanged — no write happens on the not-found path. -/
theorem c9_not_found_atomic (store : UserStore) (i : String)
    (data : UpdateUserDto) (pdata : PatchUserDto)
    (h : findUnique store i = none) :
    userService.update store i data
        = (store, .error (.notFoundError "User not found"))
      ∧ userService.patch store i pdata
        = (store, .error (.notFoundError "User not found"))
      ∧ userService.delete store i
        = (store, .error (.notFoundError "User not found")) := by
  have hg : userService.getById store i
      = .error (.notFoundError "User not found") := by
    unfold userService.getById
    rw [h]
  refine ⟨?_, ?_, ?_⟩
  · unfold userService.update
    rw [hg]
  · unfold userService.patch
    rw [hg]
  · unfold userService.delete
    rw [hg]

/-- C9 witness: on a store holding only user `"u1"`, the three operations
at the unknown id `"u2"` all return `NotFoundError` and the unchanged
store. -/
theorem c9_not_found_atomic_witness :
    userService.update [⟨"u1", "Jane", "Doe", 30⟩] "u2" ⟨"A", "B", 40⟩
        = ([⟨"u1", "Jane", "Doe", 30⟩], .error (.notFoundError "User not found"))
      ∧ userService.patch [⟨"u1", "Jane", "Doe", 30⟩] "u2" ⟨none, none, some 41⟩
        = ([⟨"u1", "Jane", "Doe", 30⟩], .error (.notFoundError "User not found"))
      ∧ userService.delete [⟨"u1", "Jane", "Doe", 30⟩] "u2"
        = ([⟨"u1", "Jane", "Doe", 30⟩], .error (.notFoundError "User not found")) :=
  c9_not_found_atomic [⟨"u1", "Jane", "Doe", 30⟩] "u2" ⟨"A", "B", 40⟩
    ⟨none, none, some 41⟩ (by decide)

/-- Possible outcomes of the external `schema.parseAsync` call in
`middleware/validation.middleware.ts` (Zod library code, not part of the
repository): the validated value, or a `ZodError` carrying its issues. -/
inductive ParseOutcome (α : Type) where
  | parsed (value : α)
  | zodFailure (issues : List String)

/-- Modelled from the spec: how a `ThrownError` (the `AppError` classes of
the absent `utils/error.util.ts`, plus anything else thrown) arrives at
the error middleware — each documented subclass carries its fixed status
code and code, anything else is an unrecognized `Error`. -/
def toJsError : ThrownError → JsError
  | .unauthorizedError msg => .appError 401 "UNAUTHORIZED" msg .noDetails
  | .notFoundError msg => .appError 404 "NOT_FOUND" msg .noDetails
  | .conflictError msg => .appError 409 "CONFLICT" msg .noDetails
  | .validationError msg => .appError 400 "VALIDATION_ERROR" msg .noDetails
  | .genericError msg => .otherError msg

/-- Embedding of an Express route pipeline
`validate(schema) → controller → errorHandler`
(`middleware/validation.middleware.ts`): `validate` runs the Zod parse
first; on failure it calls `next(error)`, so the controller — and with it
any service call and any store write — never runs and the `ZodError` goes
straight to the error middleware; on success the controller runs on the
validated value, and an error it throws reaches the error middleware via
its `catch`/`next(error)`. Returns the resulting user store together with
the success value or the error response. -/
def runRoute {α β : Type} (store : UserStore) (outcome : ParseOutcome α)
    (controller : UserStore → α → UserStore × Except ThrownError β) :
    UserStore × Except ErrorResponse β :=
  match outcome with
  | .zodFailure issues => (store, .error (errorHandler (.zodError issues)))
  | .parsed v =>
    match controller store v with
    | (store2, .ok b) => (store2, .ok b)
    | (store2, .error e) => (store2, .error (errorHandler (toJsError e)))

/-- C8: the error middleware maps every `ZodError` to HTTP 400 with code
`VALIDATION_ERROR` and the validation details, every `AppError` to that
error's own status code and code, and only errors of neither kind to the
generic HTTP 500 `INTERNAL_ERROR`; a recognized validation failure is
never reported as the generic kind; and a validation failure is rejected
at the boundary with no mutation performed — whatever the controller
behind the route would do, the pipeline returns the user store unchanged
together with the 400 `VALIDATION_ERROR` response. -/
theorem c8_error_handler_specific :
    (∀ issues, errorHandler (.zodError issues)
        = ⟨400, "Validation failed", "VALIDATION_ERROR", .zodIssues issues⟩)
      ∧ (∀ statusCode code message details,
          errorHandler (.appError statusCode code message details)
            = ⟨statusCode, message, code, details⟩)
      ∧ (∀ message, errorHandler (.otherError message)
            = ⟨500, "Internal server error", "INTERNAL_ERROR", .noDetails⟩)
      ∧ (∀ issues, (errorHandler (.zodError issues)).code ≠ "INTERNAL_ERROR")
      ∧ (∀ (α β : Type) (store : UserStore) (issues : List String)
            (controller : UserStore → α → UserStore × Except ThrownError β),
          runRoute store (.zodFailure issues) controller
            = (store,
               .error ⟨400, "Validation failed", "VALIDATION_ERROR",
                       .zodIssues issues⟩)) :=
  ⟨fun _ => rfl, fun _ _ _ _ => rfl, fun _ => rfl,
   fun _ => by
    show ("VALIDATION_ERROR" : String) ≠ "INTERNAL_ERROR"
    decide,
   fun _ _ _ _ _ => rfl⟩

end Problem5

/-!
Part 3: the scoreboard design of `src/problem6`. This subsystem exists in
the repository only as prose documentation (no code under `src/`), so the
definitions below are modelled from the spec.
-/

namespace Problem6

/-- Modelled from the spec: a score-update request handled by the Update
Coordinator; `points` is the server-side point value for the validated
action (non-negative). -/
structure UpdateReq where
  userId : String
  points : Nat
deriving DecidableEq

/-- Modelled from the spec: the user → score mapping (users absent from
the board have the implicit default score). -/
abbrev ScoreMap := String → Nat

/-- Modelled from the spec: one serialized read-modify-write commit of a
request against the score map — per-user serialization makes each
request's read of the current score and write of the incremented score an
atomic step. -/
def applyReq (s : ScoreMap) (r : UpdateReq) : ScoreMap :=
  fun v => if v = r.userId then s r.userId + r.points else s v

/-- The total points awarded to user `u` by a batch of requests. -/
def sumPoints (u : String) (reqs : List UpdateReq) : Nat :=
  ((reqs.filter (fun r => r.userId == u)).map (fun r => r.points)).sum

/-- Helper: folding a batch of serialized commits adds exactly the batch's
points for each user. -/
theorem foldl_applyReq_score (u : String) :
    ∀ (l : List UpdateReq) (init : ScoreMap),
      (l.foldl applyReq init) u = init u + sumPoints u l
  | [], init => by simp [sumPoints]
  | r :: rs, init => by
    rw [List.foldl_cons, foldl_applyReq_score u rs (applyReq init r)]
    have hs : sumPoints u (r :: rs)
        = (if r.userId = u then r.points else 0) + sumPoints u rs := by
      unfold sumPoints
      by_cases hu : r.userId = u
      · simp [List.filter_cons, hu]
      · simp [List.filter_cons, hu]
    have ha : applyReq init r u = init u + (if r.userId = u then r.points else 0) := by
      unfold applyReq
      by_cases hu : r.userId = u
      · subst hu
        simp
      · rw [if_neg (fun h => hu h.symm), if_neg hu, add_zero]
    rw [ha, hs]
    omega

/-- C3: per-user serialization means the effect of `N` concurrent update
requests is that of the atomic commits in some order (an arbitrary
permutation of the batch); in every such order the final score of each
user is the initial score plus the sum of that user's awarded points (no
lost updates), and commits for distinct users commute, so requests for
different users may proceed in parallel with the same outcome. -/
theorem c3_no_lost_updates (init : ScoreMap) (u : String)
    (reqs order : List UpdateReq) (hperm : order.Perm reqs) :
    (order.foldl applyReq init) u = init u + sumPoints u reqs
      ∧ (∀ (s : ScoreMap) (r1 r2 : UpdateReq), r1.userId ≠ r2.userId →
          applyReq (applyReq s r1) r2 = applyReq (applyReq s r2) r1) := by
  constructor
  · rw [foldl_applyReq_score u order init]
    have : sumPoints u order = sumPoints u reqs := by
      unfold sumPoints
      exact ((hperm.filter _).map _).sum_eq
    rw [this]
  · intro s r1 r2 hne
    have h12 : (r2.userId = r1.userId) = False := eq_false (fun h => hne h.symm)
    have h21 : (r1.userId = r2.userId) = False := eq_false hne
    funext v
    simp only [applyReq]
    by_cases h1 : v = r1.userId
    · subst h1
      simp [h21, h12]
    · by_cases h2 : v = r2.userId
      · subst h2
        simp [h12, h1]
      · simp [h1, h2]

/-- C3 witness: the spec's example — `"alice"` at score `0` earns `10`
points twice concurrently; in the swapped commit order the final score is
`0 + 20`, and distinct-user commits commute. -/
theorem c3_no_lost_updates_witness :
    (([⟨"alice", 10⟩, ⟨"alice", 10⟩] :
        List UpdateReq).foldl applyReq (fun _ => 0)) "alice"
      = (fun _ => 0 : ScoreMap) "alice"
          + sumPoints "alice" [⟨"alice", 10⟩, ⟨"alice", 10⟩]
    ∧ (∀ (s : ScoreMap) (r1 r2 : UpdateReq), r1.userId ≠ r2.userId →
        applyReq (applyReq s r1) r2 = applyReq (applyReq s r2) r1) :=
  c3_no_lost_updates (fun _ => 0) "alice"
    [⟨"alice", 10⟩, ⟨"alice", 10⟩] [⟨"alice", 10⟩, ⟨"alice", 10⟩]
    (List.Perm.refl _)

/-- Modelled from the spec: processing one action for a user — the awarded
points are looked up in the server-held configuration keyed by action
identifier (a non-negative point value per known action); unknown actions
are rejected with no mutation. The score itself is carried as an integer
so that non-negativity is a proved invariant, not a typing assumption. -/
def processAction (cfg : String → Option Nat) (score : Int) (a : String) : Int :=
  match cfg a with
  | some p => score + (p : Int)
  | none => score

/-- The sequence of scores observed over time for one user, starting from
`s0`, as each action of the sequence is handled. -/
def observedScores (cfg : String → Option Nat) (s0 : Int) (actions : List String) :
    List Int :=
  List.scanl (processAction cfg) s0 actions

/-- Helper: a single processed action never decreases the score. -/
theorem processAction_le (cfg : String → Option Nat) (score : Int) (a : String) :
    score ≤ processAction cfg score a := by
  unfold processAction
  cases cfg a with
  | none => exact le_refl _
  | some p =>
    show score ≤ score + (p : Int)
    have : (0 : Int) ≤ (p : Int) := Int.natCast_nonneg p
    omega

/-- Helper: `scanl` starts with its initial accumulator. -/
theorem scanl_head_cons (f : Int → String → Int) (b : Int) (l : List String) :
    ∃ t, List.scanl f b l = b :: t := by
  cases l with
  | nil => exact ⟨[], rfl⟩
  | cons a l => exact ⟨List.scanl f (f b a) l, rfl⟩

/-- Helper: the observed score sequence is a non-decreasing chain. -/
theorem observedScores_chain (cfg : String → Option Nat) :
    ∀ (actions : List String) (s0 : Int),
      List.Chain' (· ≤ ·) (observedScores cfg s0 actions)
  | [], s0 => by simp [observedScores]
  | a :: l, s0 => by
    unfold observedScores
    rw [List.scanl_cons]
    obtain ⟨t, ht⟩ := scanl_head_cons (processAction cfg) (processAction cfg s0 a) l
    rw [ht]
    have h2 := observedScores_chain cfg l (processAction cfg s0 a)
    unfold observedScores at h2
    rw [ht] at h2
    exact List.Chain'.cons (processAction_le cfg s0 a) h2

/-- Helper: every observed score is at least the starting score. -/
theorem observedScores_lower (cfg : String → Option Nat) :
    ∀ (actions : List String) (s0 : Int) (x : Int),
      x ∈ observedScores cfg s0 actions → s0 ≤ x
  | [], s0, x => by
    unfold observedScores
    intro hx
    simp at hx
    omega
  | a :: l, s0, x => by
    unfold observedScores
    rw [List.scanl_cons]
    intro hx
    rcases List.mem_cons.mp hx with h | h
    · omega
    · have := observedScores_lower cfg l (processAction cfg s0 a) x h
      have := processAction_le cfg s0 a
      omega

/-- C4: for every action configuration and every action sequence, starting
from a non-negative score, the sequence of scores observed over time is
non-decreasing and every observed score is a non-negative integer. -/
theorem c4_scores_monotone (cfg : String → Option Nat) (s0 : Int)
    (h : 0 ≤ s0) (actions : List String) :
    List.Chain' (· ≤ ·) (observedScores cfg s0 actions)
      ∧ ∀ x ∈ observedScores cfg s0 actions, 0 ≤ x := by
  refine ⟨observedScores_chain cfg actions s0, fun x hx => ?_⟩
  have := observedScores_lower cfg actions s0 x hx
  omega

/-- C4 witness: a user created at score `0` performing a known `10`-point
action, an unknown action and the known action again — the observed score
sequence is non-decreasing and non-negative throughout. -/
theorem c4_scores_monotone_witness :
    List.Chain' (· ≤ ·)
        (observedScores
          (fun a => if a == "complete-quest" then some 10 else none) 0
          ["complete-quest", "bogus", "complete-quest"])
      ∧ ∀ x ∈ observedScores
          (fun a => if a == "complete-quest" then some 10 else none) 0
          ["complete-quest", "bogus", "complete-quest"], 0 ≤ x :=
  c4_scores_monotone (fun a => if a == "complete-quest" then some 10 else none)
    0 (by decide) ["complete-quest", "bogus", "complete-quest"]

/-- Modelled from the spec: a Rank Index entry, a `(score, userId)` pair. -/
structure Entry where
  userId : String
  score : Nat
deriving DecidableEq

/-- Modelled from the spec: the deterministic ranking order — higher score
first, ties broken by the stable secondary key `userId` (ascending). -/
def entryLE (a b : Entry) : Prop :=
  b.score < a.score ∨ (a.score = b.score ∧ a.userId ≤ b.userId)

instance : DecidableRel entryLE := fun a b =>
  inferInstanceAs
    (Decidable (b.score < a.score ∨ (a.score = b.score ∧ a.userId ≤ b.userId)))

instance : IsTotal Entry entryLE := by
  constructor
  intro a b
  unfold entryLE
  rcases lt_trichotomy a.score b.score with h | h | h
  · exact Or.inr (Or.inl h)
  · rcases le_total a.userId b.userId with hu | hu
    · exact Or.inl (Or.inr ⟨h, hu⟩)
    · exact Or.inr (Or.inr ⟨h.symm, hu⟩)
  · exact Or.inl (Or.inl h)

instance : IsTrans Entry entryLE := by
  constructor
  intro a b c hab hbc
  unfold entryLE at *
  rcases hab with h1 | ⟨h1, h1u⟩ <;> rcases hbc with h2 | ⟨h2, h2u⟩
  · exact Or.inl (by omega)
  · exact Or.inl (by omega)
  · exact Or.inl (by omega)
  · exact Or.inr ⟨by omega, le_trans h1u h2u⟩

instance : IsAntisymm Entry entryLE := by
  constructor
  rintro ⟨ua, sa⟩ ⟨ub, sb⟩ hab hba
  unfold entryLE at hab hba
  simp only at hab hba
  rcases hab with h1 | ⟨h1, h1u⟩ <;> rcases hba with h2 | ⟨h2, h2u⟩
  · omega
  · omega
  · omega
  · have : ua = ub := le_antisymm h1u h2u
    subst this
    have : sa = sb := h1
    subst this
    rfl

/-- Modelled from the spec: the ordered content of the Rank Index, rebuilt
from the (unordered) set of entries by sorting under the deterministic
ranking order. -/
def sortEntries (l : List Entry) : List Entry :=
  l.insertionSort entryLE

/-- Attach 1-indexed ranks, counting from `i`. -/
def rankFrom (i : Nat) : List Entry → List (Nat × String × Nat)
  | [] => []
  | e :: es => (i, e.userId, e.score) :: rankFrom (i + 1) es

/-- Modelled from the spec: `topK(k)` — the `k` highest entries of the
Rank Index as `(rank, userId, score)` tuples with 1-indexed rank, highest
score first, ties broken by `userId`. -/
def topK (k : Nat) (l : List Entry) : List (Nat × String × Nat) :=
  rankFrom 1 ((sortEntries l).take k)

/-- Helper: the ranks attached by `rankFrom i` are `i, i+1, …`. -/
theorem rankFrom_map_fst : ∀ (i : Nat) (xs : List Entry),
    (rankFrom i xs).map (fun t => t.1) = List.range' i xs.length
  | _, [] => by simp [rankFrom]
  | i, e :: es => by
    simp [rankFrom, List.range'_succ, rankFrom_map_fst (i + 1) es]

/-- Helper: ranked tuples built from a chain under the ranking order have
non-increasing scores. -/
theorem rankFrom_chain : ∀ (i : Nat) (xs : List Entry),
    List.Chain' entryLE xs →
    List.Chain' (fun a b : Nat × String × Nat => b.2.2 ≤ a.2.2) (rankFrom i xs)
  | _, [], _ => by simp [rankFrom]
  | _, [e], _ => by simp [rankFrom]
  | i, e1 :: e2 :: t, h => by
    simp only [rankFrom]
    refine List.Chain'.cons ?_ ?_
    · have h1 := (List.chain'_cons.mp h).1
      unfold entryLE at h1
      rcases h1 with h1 | ⟨h1, _⟩ <;> simp <;> omega
    · have h2 := (List.chain'_cons.mp h).2
      have := rankFrom_chain (i + 1) (e2 :: t) h2
      simpa [rankFrom] using this

/-- C5: `topK` is deterministic — it depends only on the set of
`(userId, score)` entries, not the order in which they were supplied, so
repeated calls on the same set return the identical sequence; moreover
the returned ranks are `1, 2, …` and the scores are highest-first. -/
theorem c5_topk_deterministic (k : Nat) (l1 l2 : List Entry)
    (hperm : l1.Perm l2) :
    topK k l1 = topK k l2
      ∧ (topK k l1).map (fun t => t.1)
          = List.range' 1 ((sortEntries l1).take k).length
      ∧ List.Chain' (fun a b : Nat × String × Nat => b.2.2 ≤ a.2.2) (topK k l1) := by
  have hsorted1 : List.Sorted entryLE (sortEntries l1) :=
    List.sorted_insertionSort entryLE l1
  have hsorted2 : List.Sorted entryLE (sortEntries l2) :=
    List.sorted_insertionSort entryLE l2
  have hp : (sortEntries l1).Perm (sortEntries l2) :=
    (List.perm_insertionSort entryLE l1).trans
      (hperm.trans (List.perm_insertionSort entryLE l2).symm)
  have hsort : sortEntries l1 = sortEntries l2 :=
    List.eq_of_perm_of_sorted hp hsorted1 hsorted2
  refine ⟨?_, rankFrom_map_fst 1 _, ?_⟩
  · unfold topK
    rw [hsort]
  · unfold topK
    apply rankFrom_chain
    have htake : List.Sorted entryLE ((sortEntries l1).take k) :=
      List.Pairwise.sublist (List.take_sublist k (sortEntries l1)) hsorted1
    exact List.Pairwise.chain' htake

/-- C5 witness: the spec's seeded board `[50, 30, 20 ("alice"), 5]` in two
insertion orders gives identical `topK 10` output with 1-indexed ranks and
descending scores ("alice" at rank 3). -/
theorem c5_topk_deterministic_witness :
    topK 10 [⟨"carol", 30⟩, ⟨"bob", 50⟩, ⟨"alice", 20⟩, ⟨"dave", 5⟩]
        = topK 10 [⟨"bob", 50⟩, ⟨"carol", 30⟩, ⟨"alice", 20⟩, ⟨"dave", 5⟩]
      ∧ (topK 10 [⟨"carol", 30⟩, ⟨"bob", 50⟩, ⟨"alice", 20⟩, ⟨"dave", 5⟩]).map
            (fun t => t.1)
          = List.range' 1
              ((sortEntries
                [⟨"carol", 30⟩, ⟨"bob", 50⟩, ⟨"alice", 20⟩, ⟨"dave", 5⟩]).take
                10).length
      ∧ List.Chain' (fun a b : Nat × String × Nat => b.2.2 ≤ a.2.2)
          (topK 10 [⟨"carol", 30⟩, ⟨"bob", 50⟩, ⟨"alice", 20⟩, ⟨"dave", 5⟩]) :=
  c5_topk_deterministic 10
    [⟨"carol", 30⟩, ⟨"bob", 50⟩, ⟨"alice", 20⟩, ⟨"dave", 5⟩]
    [⟨"bob", 50⟩, ⟨"carol", 30⟩, ⟨"alice", 20⟩, ⟨"dave", 5⟩]
    (List.Perm.swap (⟨"bob", 50⟩ : Entry) (⟨"carol", 30⟩ : Entry)
      ([⟨"alice", 20⟩, ⟨"dave", 5⟩] : List Entry))

/-- Modelled from the spec: the coordinator-visible system state — the
in-memory Rank Index scores and the durable Score Store scores. -/
structure SysState where
  rankIndex : ScoreMap
  store : ScoreMap

/-- The Rank Index agrees with the Score Store on every user. -/
def agrees (st : SysState) : Prop :=
  ∀ v, st.rankIndex v = st.store v

/-- The failure reported when the Score Store is unavailable. -/
inductive StoreError where
  | storeUnavailable
deriving DecidableEq

/-- Modelled from the spec: the Score Store collaborator's
`applyDelta(userId, points)` — commits the delta durably when the store is
available, fails with no new state when it is not. -/
def storeApplyDelta (avail : Bool) (s : ScoreMap) (u : String) (p : Nat) :
    Option ScoreMap :=
  if avail then some (fun v => if v = u then s u + p else s v) else none

/-- Modelled from the spec: one Update Coordinator mutation — the durable
write and the Rank Index update are transactionally coupled: the index is
mutated only after the durable commit succeeds; on `StoreUnavailable` the
whole operation aborts and the state is returned untouched. Returns the
resulting state together with the committed new score or the error. -/
def coordUpdate (avail : Bool) (st : SysState) (u : String) (p : Nat) :
    SysState × Except StoreError Nat :=
  match storeApplyDelta avail st.store u p with
  | none => (st, .error .storeUnavailable)
  | some store2 =>
    let newScore := st.store u + p
    (⟨fun v => if v = u then newScore else st.rankIndex v, store2⟩,
     .ok newScore)

/-- C6: if the durable write fails (store unavailable) the whole update
aborts with no partial state — the Rank Index (and the store) are exactly
as before and the caller sees `storeUnavailable` — and every observable
state, after a failed or a successful update, keeps the Rank Index in
agreement with the Score Store. -/
theorem c6_store_failure_atomic (st : SysState) (u : String) (p : Nat)
    (h : agrees st) :
    (coordUpdate false st u p).1 = st
      ∧ (coordUpdate false st u p).2 = .error .storeUnavailable
      ∧ (∀ avail, agrees (coordUpdate avail st u p).1) := by
  refine ⟨rfl, rfl, fun avail => ?_⟩
  cases avail with
  | false => exact h
  | true =>
    intro v
    show (if v = u then st.store u + p else st.rankIndex v)
      = (if v = u then st.store u + p else st.store v)
    by_cases hv : v = u
    · rw [if_pos hv, if_pos hv]
    · rw [if_neg hv, if_neg hv, h v]

/-- C6 witness: on an empty, agreeing board, an update for `"alice"` with
the store down aborts with `storeUnavailable` and leaves the state
untouched; with the store up the index still agrees with the store. -/
theorem c6_store_failure_atomic_witness :
    (coordUpdate false ⟨fun _ => 0, fun _ => 0⟩ "alice" 10).1
        = (⟨fun _ => 0, fun _ => 0⟩ : SysState)
      ∧ (coordUpdate false ⟨fun _ => 0, fun _ => 0⟩ "alice" 10).2
        = .error .storeUnavailable
      ∧ (∀ avail,
          agrees (coordUpdate avail ⟨fun _ => 0, fun _ => 0⟩ "alice" 10).1) :=
  c6_store_failure_atomic ⟨fun _ => 0, fun _ => 0⟩ "alice" 10 (fun _ => rfl)

end Problem6
